import Mathlib

/-!
Verification development for the Figra dependency-analysis pipeline.

The four pipeline stages are shallowly embedded here as executable Lean
functions translated from the TypeScript sources:

* `Figra.findPatternReferences` — `src/core/Finder.ts` (reference finder);
  the external ripgrep subprocess is modelled as an oracle
  `search : String → SpawnResult`, and the resolved binary path as an
  `Option String` (the value returned by `resolveRipgrepPath`).
* `Figra.findPathResolver` / `Figra.resolveImportPath` — `src/core/Resolver.ts`;
  the filesystem (`existsSync`) is modelled as a predicate
  `fs : String → Bool`, and Node's POSIX path helpers (`resolve`,
  `normalize`, `dirname`, `extname`) are embedded as string functions.
* `Figra.findFileStructure` — the export extractor; its module-global
  accumulators (`exports`, `seenNames`) are threaded explicitly as a
  `ParserState`, and its regexes are executed by a small token matcher.
* `Figra.findCorrelation` — the correlator; its filesystem-reading
  re-export-chain heuristic `isReExportChain` is passed in as an oracle.

Path model note: paths are POSIX strings with separator `/`; Node's
preservation of trailing slashes in `normalize`, its use of the process
working directory in `resolve` for relative bases, and its special cases of
`extname` on all-dot basenames are not modelled (no call site relies on
them).
-/

namespace Figra

/-- One exported symbol descriptor: the `StructureInfo` interface. -/
structure StructureInfo where
  name : String
  type : String
deriving DecidableEq

/-- One finder/resolver record: the `FinderResult` interface.
`reference` and `imported` are optional fields in the TypeScript interface. -/
structure FinderResult where
  reference : Option String := none
  imported : Option (List String) := none
  filename : String
  data : String
deriving DecidableEq

/-- One alias-table entry: the `AliasConfig` interface. -/
structure AliasConfig where
  key : String
  value : String
deriving DecidableEq

/-- One dependency edge: the `DependencyConnection` interface
(`from` and `to` are Lean keywords, hence the field names `fromPath` —
also the name of the local variable the source assigns it from — and
`toPath`). -/
structure DependencyConnection where
  id : Nat
  fromPath : String
  toPath : String
  type : String
  exports : List String
deriving DecidableEq

/-- The final output artifact: the `DependencyTree` interface. -/
structure DependencyTree where
  filePath : String
  connections : List DependencyConnection
  exports : List StructureInfo
deriving DecidableEq

/-- Does `sub` occur as a contiguous subsequence of `l`?  Embeds the
semantics of JavaScript `String.prototype.includes` on the char level
(the empty pattern is contained in everything). -/
def containsSeq (sub : List Char) : List Char → Bool
  | [] => sub.isEmpty
  | c :: rest => sub.isPrefixOf (c :: rest) || containsSeq sub rest

/-- JavaScript `s.includes(sub)`. -/
def strIncludes (s sub : String) : Bool :=
  containsSeq sub.data s.data

/-- ASCII portion of the JavaScript whitespace class (used by `trim` and
the regex class `\s`). -/
def isWsChar (c : Char) : Bool :=
  c = ' ' || c = '\t' || c = '\n' || c = '\r' || c = '\x0b' || c = '\x0c'

/-- Fuel-driven splitting loop: emit the accumulated (reversed) chunk when
the separator occurs at the head, otherwise shift one char.  The fuel is
the input length; every step consumes at least one char.  Structural
recursion keeps it kernel-reducible. -/
def splitGo (sep : List Char) : Nat → List Char → List Char → List (List Char)
  | _, [], cur => [cur.reverse]
  | 0, s, cur => [cur.reverse ++ s]
  | Nat.succ fuel, c :: rest, cur =>
      if sep.isPrefixOf (c :: rest) then
        cur.reverse :: splitGo sep fuel (rest.drop (sep.length - 1)) []
      else splitGo sep fuel rest (c :: cur)

/-- JavaScript `s.split(sep)` for a non-empty plain-string separator
(every separator in the sources is non-empty; the empty case defaults to
the whole string). -/
def strSplitOn (s sep : String) : List String :=
  if sep.data.isEmpty then [s]
  else (splitGo sep.data s.data.length s.data []).map String.mk

/-- JavaScript `s.trim()` (ASCII whitespace). -/
def strTrim (s : String) : String :=
  String.mk (((s.data.dropWhile isWsChar).reverse.dropWhile isWsChar).reverse)

/-- JavaScript `s.startsWith(pre)`. -/
def strStartsWith (s pre : String) : Bool :=
  pre.data.isPrefixOf s.data

/-- Interleave a separator between chunks (JavaScript `parts.join(sep)`). -/
def intercalateL (sep : List Char) : List (List Char) → List Char
  | [] => []
  | [x] => x
  | x :: y :: rest => x ++ sep ++ intercalateL sep (y :: rest)

/-- String version of `intercalateL`. -/
def strIntercalate (sep : String) (xs : List String) : String :=
  String.mk (intercalateL sep.data (xs.map String.data))

/-- `allowedExtensions` from `src/constants/index.ts`. -/
def allowedExtensions : List String :=
  [".js", ".mjs", ".cjs", ".jsx", ".ts", ".tsx"]

/-- Outcome of one ripgrep subprocess invocation: the `close` event carries
an optional exit code (null when killed by a signal) and the accumulated
stdout; the `error` event means the process could not be spawned. -/
inductive SpawnResult where
  | closed (code : Option Int) (stdout : String)
  | errored
deriving DecidableEq

/-- The per-invocation promise of `findPatternReferences`: exit code 0 or 1
resolves with stdout, anything else (or a spawn error) rejects. -/
def runSearch (search : String → SpawnResult) (pat : String) : Except String String :=
  match search pat with
  | SpawnResult.closed code out =>
      if code == some 0 || code == some 1 then Except.ok out
      else Except.error "ripgrep failed"
  | SpawnResult.errored => Except.error "spawn error"

/-- The search patterns generated for one exported symbol
(`Finder.ts`, the `fileStructure.forEach` body): a kind-specific pattern
first, then the five generic patterns. -/
def searchPatternsFor (item : StructureInfo) : List String :=
  (if item.type == "type" || item.type == "interface" then
    ["import\\s+type\\s+\\\x7b[^\x7d]*" ++ item.name ++ "[^\x7d]*\\\x7d\\s+from"]
  else if item.type == "class" || item.type == "function" || item.type == "variable" then
    ["import\\s+\\\x7b[^\x7d]*" ++ item.name ++ "\\s+as\\s+\\w+[^\x7d]*\\\x7d\\s+from"]
  else if item.type == "default" then
    ["import\\s+" ++ item.name ++ "\\s+from"]
  else if item.type == "property" then
    ["require\\([\x27\"]\\.\\/[^\x27\"]*" ++ item.name ++ "[^\x27\"]*[\x27\"]\\)"]
  else []) ++
  ["const\\s+" ++ item.name ++ "\\s*=\\s*require\\(",
   "import\\s+\\\x7b[^\x7d]*" ++ item.name ++ "[^\x7d]*\\\x7d\\s+from",
   "import\\s+\\*\\s+as\\s+" ++ item.name ++ "\\s+from",
   "import\\s+" ++ item.name ++ "\\s+from",
   "import\\s+" ++ item.name ++ "\\s*,\\s*\\\x7b"]

/-- Split one ripgrep output line at `:` into `(filename, content)`:
`parts[0]` is the file, the remaining parts are re-joined with `:` and
trimmed ( `Finder.ts` lines 87-92). -/
def parseLine (line : String) : String × String :=
  match strSplitOn line ":" with
  | [] => ("", "")
  | file :: content => (file, strTrim (strIntercalate ":" content))

/-- Parse one invocation's stdout: nothing if blank, otherwise
trim, split into lines, and split each line ( `Finder.ts` lines 85-88). -/
def parseLines (result : String) : List (String × String) :=
  if strTrim result = "" then []
  else (strSplitOn (strTrim result) "\n").map parseLine

/-- Merge one `(filename, content)` pair into the accumulated results:
the first entry with the same filename absorbs the content unless its
`data` already contains it as a substring; a new filename is appended
( `Finder.ts` lines 93-100). -/
def mergeLine : List FinderResult → String → String → List FinderResult
  | [], file, content =>
      [{ filename := file, data := content }]
  | r :: rest, file, content =>
      if r.filename == file then
        if strIncludes r.data content then r :: rest
        else { r with data := r.data ++ "\n" ++ content } :: rest
      else r :: mergeLine rest file content

/-- Fold one invocation's parsed stdout into the accumulator. -/
def applyOutput (acc : List FinderResult) (out : String) : List FinderResult :=
  (parseLines out).foldl (fun a p => mergeLine a p.1 p.2) acc

/-- The `for (const pattern of searchPatterns)` loop: each pattern's
subprocess result is awaited in order; a rejection propagates out of the
loop ( `Finder.ts` lines 43-104). -/
def finderLoop (search : String → SpawnResult) :
    List String → List FinderResult → Except String (List FinderResult)
  | [], acc => Except.ok acc
  | p :: rest, acc =>
      match runSearch search p with
      | Except.error e => Except.error e
      | Except.ok out => finderLoop search rest (applyOutput acc out)

/-- `findPatternReferences` from `src/core/Finder.ts`.  `ripgrepPath` is the
value of `resolveRipgrepPath()`; when it is `none` the function throws
(modelled as `Except.error`) — this throw sits *outside* the `try` block.
Inside the `try`, any per-pattern rejection reaches the surrounding
`catch`, which returns the empty list. -/
def findPatternReferences (ripgrepPath : Option String)
    (search : String → SpawnResult)
    (fileStructure : List StructureInfo) : Except String (List FinderResult) :=
  match ripgrepPath with
  | none => Except.error "Ripgrep binary not found"
  | some _ =>
      let searchPatterns := fileStructure.flatMap searchPatternsFor
      match finderLoop search searchPatterns [] with
      | Except.ok res => Except.ok res
      | Except.error _ => Except.ok []

/-- Segment-normalization loop of Node's POSIX `path.normalize`: empty and
`.` segments are dropped, `..` pops the previous real segment, and leading
`..` segments survive in a relative path (are dropped at the root of an
absolute one). `acc` holds already-normalized segments in reverse. -/
def normAux (isAbs : Bool) : List String → List String → List String
  | acc, [] => acc.reverse
  | acc, seg :: rest =>
      if seg = "" || seg = "." then normAux isAbs acc rest
      else if seg = ".." then
        match acc with
        | [] => if isAbs then normAux isAbs [] rest else normAux isAbs [".."] rest
        | top :: acc2 =>
            if top = ".." then normAux isAbs (".." :: top :: acc2) rest
            else normAux isAbs acc2 rest
      else normAux isAbs (seg :: acc) rest

/-- Node `path.normalize` on POSIX paths (trailing-slash preservation not
modelled). -/
def pathNormalize (p : String) : String :=
  let isAbs := strStartsWith p "/"
  let segs := normAux isAbs [] (strSplitOn p "/")
  let joined := strIntercalate "/" segs
  if isAbs then "/" ++ joined
  else if joined = "" then "." else joined

/-- Node `path.resolve(base, p)` for an absolute `base` (every call site
passes an absolute directory). -/
def pathResolve (base p : String) : String :=
  if strStartsWith p "/" then pathNormalize p
  else pathNormalize (base ++ "/" ++ p)

/-- Node `path.dirname` on POSIX paths without trailing slashes. -/
def dirname (p : String) : String :=
  let parts := strSplitOn p "/"
  if parts.length ≤ 1 then "."
  else
    let init := parts.dropLast
    if init = [""] then "/" else strIntercalate "/" init

/-- Index (from the front) of the last `.` in a char list, if any. -/
def lastDotIndex : List Char → Nat → Option Nat → Option Nat
  | [], _, best => best
  | c :: rest, i, best =>
      lastDotIndex rest (i + 1) (if c = '.' then some i else best)

/-- Node `path.extname` on POSIX paths: the suffix of the last path segment
from its last `.`, empty when there is no dot or the only dot is the
leading character (dotfiles). -/
def extname (p : String) : String :=
  let base := ((strSplitOn p "/").getLast?).getD p
  match lastDotIndex base.data 0 none with
  | some i => if 0 < i then String.mk (base.data.drop i) else ""
  | none => ""

/-- JavaScript `s.replace(pat, rep)` for plain-string `pat` (first
occurrence only; an empty pattern inserts `rep` at the front). -/
def replaceFirstL (pat rep : List Char) : List Char → List Char
  | [] => if pat.isEmpty then rep else []
  | c :: rest =>
      if pat.isPrefixOf (c :: rest) then rep ++ (c :: rest).drop pat.length
      else c :: replaceFirstL pat rep rest

/-- String version of `replaceFirstL`. -/
def replaceFirst (s pat rep : String) : String :=
  String.mk (replaceFirstL pat.data rep.data s.data)

/-- `normalizePath` from `Resolver.ts`: replace both separators with the
platform separator (modelled as `/`), then normalize. -/
def normalizePath (path : String) : String :=
  pathNormalize (String.mk (path.data.map (fun c => if c = '\\' then '/' else c)))

/-- `findFileWithExtension` from `Resolver.ts`: confirm an explicit
extension, otherwise probe each allowed extension on the base path and then
on `base/index`, in order; `fs` plays the role of `existsSync`. -/
def findFileWithExtension (fs : String → Bool) (basePath : String) : Option String :=
  if extname basePath ≠ "" then
    if fs basePath then some basePath else none
  else
    match allowedExtensions.find? (fun ext => fs (basePath ++ ext)) with
    | some ext => some (basePath ++ ext)
    | none =>
        match allowedExtensions.find? (fun ext => fs (basePath ++ "/index" ++ ext)) with
        | some ext => some (basePath ++ "/index" ++ ext)
        | none => none

/-- The alias `for` loop shared verbatim by `aliasNonRelativePath` and
`aliasRelativePath` in `Resolver.ts`: the first alias whose wildcard
stem is a string prefix of the import path (or that equals it exactly)
ends the loop with that alias's probe result — even when that probe is
`none`; `some r` means the loop returned, `none` means it fell through. -/
def aliasLoop (fs : String → Bool) (normImportPath : String) :
    List AliasConfig → Option (Option String)
  | [] => none
  | al :: rest =>
      let aliasKey := normalizePath al.key
      if strIncludes aliasKey "*" then
        let aliasStem := replaceFirst aliasKey "*" ""
        if strStartsWith normImportPath aliasStem then
          let relativePath := replaceFirst normImportPath aliasStem ""
          let aliasValue := normalizePath al.value
          some (findFileWithExtension fs (pathResolve aliasValue relativePath))
        else aliasLoop fs normImportPath rest
      else if normImportPath == aliasKey then
        some (findFileWithExtension fs (normalizePath al.value))
      else aliasLoop fs normImportPath rest

/-- `aliasNonRelativePath` from `Resolver.ts`: only for paths not starting
with `.`; when no alias matches, fall back to probing relative to the
project root. -/
def aliasNonRelativePath (fs : String → Bool) (normImportPath projectRoot : String)
    (aliasConfig : List AliasConfig) : Option String :=
  if !(strStartsWith normImportPath ".") then
    match aliasLoop fs normImportPath aliasConfig with
    | some r => r
    | none => findFileWithExtension fs (pathResolve projectRoot normImportPath)
  else none

/-- `aliasRelativePath` from `Resolver.ts`: the same alias loop with no
project-root fallback. -/
def aliasRelativePath (fs : String → Bool) (normImportPath : String)
    (aliasConfig : List AliasConfig) : Option String :=
  match aliasLoop fs normImportPath aliasConfig with
  | some r => r
  | none => none

/-- `resolveImportPath` from `Resolver.ts`.  A `./`- or `../`-import whose
resolution stays inside `projectRoot` returns that probe's result (even
`null`); otherwise control falls through to `aliasNonRelativePath` and then
`aliasRelativePath`. -/
def resolveImportPath (fs : String → Bool)
    (importPath fromFile projectRoot : String)
    (aliasConfig : List AliasConfig) : Option String :=
  let normImportPath := normalizePath importPath
  let relAttempt : Option (Option String) :=
    if strStartsWith importPath "./" || strStartsWith importPath "../" then
      let fromDir := dirname fromFile
      let fullPath := pathResolve fromDir importPath
      let normFullPath := pathNormalize fullPath
      let normProjectRoot := pathNormalize projectRoot
      if strStartsWith normFullPath normProjectRoot then
        some (findFileWithExtension fs normFullPath)
      else none
    else none
  match relAttempt with
  | some r => r
  | none =>
      match aliasNonRelativePath fs normImportPath projectRoot aliasConfig with
      | some r => some r
      | none => aliasRelativePath fs normImportPath aliasConfig

/-- Per-match body of `regexES6Import` / `regexCommonJsDestructuring`
(identical processing): split the brace group on commas, trim, drop
empties; emit a record when imports and path are non-empty and the path
resolves. `m.1`/`m.2` are the two regex capture groups. -/
def processListImport (fs : String → Bool) (projectRoot : String)
    (aliasConfig : List AliasConfig) (filename data : String)
    (m : String × String) : Option FinderResult :=
  let imports := ((strSplitOn m.1 ",").map strTrim).filter (fun s => s.length > 0)
  let path := m.2
  if imports.length > 0 && path ≠ "" then
    match resolveImportPath fs path filename projectRoot aliasConfig with
    | some resolvedPath =>
        some { reference := some resolvedPath, imported := some imports,
               filename := filename, data := data }
    | none => none
  else none

/-- Per-match body of `regexES6DefaultImport` / `regexCommonJSDefault`: a
single captured identifier becomes a one-element import list. -/
def processSingleImport (fs : String → Bool) (projectRoot : String)
    (aliasConfig : List AliasConfig) (filename data : String)
    (m : String × String) : Option FinderResult :=
  let importName := m.1
  let path := m.2
  if importName ≠ "" && path ≠ "" then
    match resolveImportPath fs path filename projectRoot aliasConfig with
    | some resolvedPath =>
        some { reference := some resolvedPath, imported := some [importName],
               filename := filename, data := data }
    | none => none
  else none

/-- Per-match body of `regexCommonJSDefault`: the captured identifier is
wrapped in a list with no own emptiness check (`match[1] !== undefined`
is always true for a completed match; `imports.length > 0` is then
trivially satisfied). -/
def processCJSDefault (fs : String → Bool) (projectRoot : String)
    (aliasConfig : List AliasConfig) (filename data : String)
    (m : String × String) : Option FinderResult :=
  let imports := [m.1]
  let path := m.2
  if imports.length > 0 && path ≠ "" then
    match resolveImportPath fs path filename projectRoot aliasConfig with
    | some resolvedPath =>
        some { reference := some resolvedPath, imported := some imports,
               filename := filename, data := data }
    | none => none
  else none

/-- `findPathResolver` from `Resolver.ts`.  The module-level accumulator is
cleared on entry, so the function is a pure fold over its input; the four
statement extractors' regex engines are passed in as match oracles
`mES6`, `mES6Default`, `mCJSDestructuring`, `mCJSDefault`, each mapping a
file's text to its list of `(group1, group2)` capture pairs. -/
def findPathResolver (fs : String → Bool) (projectRoot : String)
    (projectConfig : List AliasConfig)
    (mES6 mES6Default mCJSDestructuring mCJSDefault : String → List (String × String))
    (filePattern : List FinderResult) : List FinderResult :=
  filePattern.flatMap (fun r =>
    ((mES6 r.data).filterMap
        (processListImport fs projectRoot projectConfig r.filename r.data)) ++
    ((mES6Default r.data).filterMap
        (processSingleImport fs projectRoot projectConfig r.filename r.data)) ++
    ((mCJSDestructuring r.data).filterMap
        (processListImport fs projectRoot projectConfig r.filename r.data)) ++
    ((mCJSDefault r.data).filterMap
        (processCJSDefault fs projectRoot projectConfig r.filename r.data)))

/-- `hasMatchingImports` computation from `findCorrelation`: some imported
name equals an exported name, or (for any imported name at all) some export
has type `default` while the record's resolved reference is the analyzed
file itself. `undefined` imported short-circuits to false via `?? false`. -/
def hasMatchingImports (fileStructure : List StructureInfo) (filePath : String)
    (result : FinderResult) : Bool :=
  (result.imported.getD []).any (fun importedName =>
    fileStructure.any (fun struc =>
      struc.name == importedName ||
      (struc.type == "default" && result.reference == some filePath)))

/-- Classification step of `findCorrelation`: `direct` when the record
resolves to the analyzed file from a different consumer file, otherwise
`re-export` when the re-export-chain heuristic fires on the record's
resolved reference (`?? ''` models the undefined fallback); otherwise the
record is skipped. `isReExportChain` — a filesystem/regex heuristic —
is supplied as an oracle taking the same three arguments as the source
function. -/
def classify (isReExportChain : String → String → List FinderResult → Bool)
    (filePath : String) (pathResolver : List FinderResult)
    (result : FinderResult) : Option (String × String) :=
  if result.reference == some filePath && result.filename != filePath then
    some ("direct", filePath)
  else if isReExportChain filePath (result.reference.getD "") pathResolver then
    some ("re-export", result.reference.getD "")
  else none

/-- The record loop of `findCorrelation`, threading the 1-based
`connectionId` counter, which advances only when a connection is pushed. -/
def corrLoop (isReExportChain : String → String → List FinderResult → Bool)
    (filePath : String) (fileStructure : List StructureInfo)
    (pathResolver : List FinderResult) :
    List FinderResult → Nat → List DependencyConnection
  | [], _ => []
  | result :: rest, connectionId =>
      if hasMatchingImports fileStructure filePath result then
        match classify isReExportChain filePath pathResolver result with
        | some (connectionType, fromPath) =>
            { id := connectionId, fromPath := fromPath, toPath := result.filename,
              type := connectionType, exports := result.imported.getD [] } ::
            corrLoop isReExportChain filePath fileStructure pathResolver rest
              (connectionId + 1)
        | none =>
            corrLoop isReExportChain filePath fileStructure pathResolver rest
              connectionId
      else
        corrLoop isReExportChain filePath fileStructure pathResolver rest
          connectionId

/-- `findCorrelation` from the correlator module: build connections from
the reference records and return them with the analyzed path and the
unchanged exports list. -/
def findCorrelation (isReExportChain : String → String → List FinderResult → Bool)
    (filePath : String) (fileStructure : List StructureInfo)
    (pathResolver : List FinderResult) : DependencyTree :=
  { filePath := filePath,
    connections :=
      corrLoop isReExportChain filePath fileStructure pathResolver pathResolver 1,
    exports := fileStructure }

/-- The JavaScript regex class `\w` = `[A-Za-z0-9_]`. -/
def isWordChar (c : Char) : Bool :=
  c.isAlphanum || c = '_'

/-- First char of the class `[a-zA-Z_$]`. -/
def isIdentStart (c : Char) : Bool :=
  c.isAlpha || c = '_' || c = '$'

/-- The class `[a-zA-Z0-9_$]`. -/
def isIdentChar (c : Char) : Bool :=
  c.isAlphanum || c = '_' || c = '$'

/-- The apostrophe character, as used in the quote classes of the
extractor's regexes. -/
def squote : Char := Char.ofNat 39

/-- Tokens of the regex fragments used by the export extractor.  Each
source regex is pre-expanded into a list of alternative token sequences
(in the order the JavaScript engine would try them), so greedy optional
groups and alternations need no backtracking machinery; the repeaters
that remain (`\s+`, `\s*`, `\w+`, `[^X]+`) are all followed by tokens
disjoint from their character class, making maximal munch exact. -/
inductive RTok where
  | lit (cs : List Char)
  | ws1
  | ws0
  | wordCap
  | identCap
  | plusNotInCap (bad : List Char)
  | plusNotIn (bad : List Char)
  | oneOf (set : List Char)
  | notWsFrom
deriving DecidableEq

/-- Build a literal token from a string. -/
def litS (s : String) : RTok := RTok.lit s.data

/-- Match one token sequence at the head of `s`, threading the (single)
capture group; returns the unconsumed suffix on success. -/
def matchSeq : List RTok → List Char → Option String → Option (List Char × Option String)
  | [], s, cap => some (s, cap)
  | RTok.lit l :: rest, s, cap =>
      if l.isPrefixOf s then matchSeq rest (s.drop l.length) cap else none
  | RTok.ws1 :: rest, s, cap =>
      let n := (s.takeWhile isWsChar).length
      if n = 0 then none else matchSeq rest (s.drop n) cap
  | RTok.ws0 :: rest, s, cap =>
      matchSeq rest (s.drop (s.takeWhile isWsChar).length) cap
  | RTok.wordCap :: rest, s, _ =>
      let n := (s.takeWhile isWordChar).length
      if n = 0 then none
      else matchSeq rest (s.drop n) (some (String.mk (s.take n)))
  | RTok.identCap :: rest, s, _ =>
      match s with
      | [] => none
      | c :: s2 =>
          if isIdentStart c then
            let n := 1 + (s2.takeWhile isIdentChar).length
            matchSeq rest (s.drop n) (some (String.mk (s.take n)))
          else none
  | RTok.plusNotInCap bad :: rest, s, _ =>
      let n := (s.takeWhile (fun c => !(bad.contains c))).length
      if n = 0 then none
      else matchSeq rest (s.drop n) (some (String.mk (s.take n)))
  | RTok.plusNotIn bad :: rest, s, cap =>
      let n := (s.takeWhile (fun c => !(bad.contains c))).length
      if n = 0 then none else matchSeq rest (s.drop n) cap
  | RTok.oneOf set :: rest, s, cap =>
      match s with
      | [] => none
      | c :: s2 => if set.contains c then matchSeq rest s2 cap else none
  | RTok.notWsFrom :: rest, s, cap =>
      let s2 := s.drop (s.takeWhile isWsChar).length
      if ("from".data).isPrefixOf s2 then none else matchSeq rest s cap

/-- Try the pre-expanded alternatives of a regex in order. -/
def matchAlt : List (List RTok) → List Char → Option (List Char × Option String)
  | [], _ => none
  | alt :: rest, s =>
      match matchSeq alt s none with
      | some r => some r
      | none => matchAlt rest s

/-- The repeated-`exec` loop of a global regex: find the leftmost match,
emit its capture, resume after the matched text.  `anchored` models the
`^...` / `m` flag combination (match only at line starts); `atStart`
tracks whether the current position begins a line.  Fuel is the remaining
text length plus one; every step either consumes the (non-empty) match or
advances one character. -/
def scanGo (anchored : Bool) (pat : List (List RTok)) :
    Nat → List Char → Bool → List String
  | 0, _, _ => []
  | Nat.succ fuel, s, atStart =>
      match (if anchored && !atStart then none else matchAlt pat s) with
      | some (rest, cap) =>
          let consumed := s.length - rest.length
          if consumed = 0 then
            match s with
            | [] => [cap.getD ""]
            | c :: s2 => cap.getD "" :: scanGo anchored pat fuel s2 (c = '\n')
          else
            cap.getD "" ::
              scanGo anchored pat fuel rest ((s.take consumed).getLast? == some '\n')
      | none =>
          match s with
          | [] => []
          | c :: s2 => scanGo anchored pat fuel s2 (c = '\n')

/-- Run a global regex over a whole text, returning the captures in match
order. -/
def scan (anchored : Bool) (pat : List (List RTok)) (s : List Char) : List String :=
  scanGo anchored pat (s.length + 1) s true

/-- `/export\s+(?:async\s+)?function\s+(\w+)/g` -/
def functionRegex : List (List RTok) :=
  [[litS "export", RTok.ws1, litS "async", RTok.ws1, litS "function", RTok.ws1, RTok.wordCap],
   [litS "export", RTok.ws1, litS "function", RTok.ws1, RTok.wordCap]]

/-- `/export\s+(const|let|var)\s+(\w+)/g` (the extractor uses group 2). -/
def variableRegex : List (List RTok) :=
  [[litS "export", RTok.ws1, litS "const", RTok.ws1, RTok.wordCap],
   [litS "export", RTok.ws1, litS "let", RTok.ws1, RTok.wordCap],
   [litS "export", RTok.ws1, litS "var", RTok.ws1, RTok.wordCap]]

/-- `/export\s+(?:default\s+)?class\s+(\w+)/g` -/
def classRegex : List (List RTok) :=
  [[litS "export", RTok.ws1, litS "default", RTok.ws1, litS "class", RTok.ws1, RTok.wordCap],
   [litS "export", RTok.ws1, litS "class", RTok.ws1, RTok.wordCap]]

/-- `/export\s+(?:default\s+)?interface\s+(\w+)/g` -/
def interfaceRegex : List (List RTok) :=
  [[litS "export", RTok.ws1, litS "default", RTok.ws1, litS "interface", RTok.ws1, RTok.wordCap],
   [litS "export", RTok.ws1, litS "interface", RTok.ws1, RTok.wordCap]]

/-- `/export\s+(?:default\s+)?type\s+(\w+)/g` -/
def typeRegex : List (List RTok) :=
  [[litS "export", RTok.ws1, litS "default", RTok.ws1, litS "type", RTok.ws1, RTok.wordCap],
   [litS "export", RTok.ws1, litS "type", RTok.ws1, RTok.wordCap]]

/-- `/export\s+(?:default\s+)?enum\s+(\w+)/g` -/
def enumRegex : List (List RTok) :=
  [[litS "export", RTok.ws1, litS "default", RTok.ws1, litS "enum", RTok.ws1, RTok.wordCap],
   [litS "export", RTok.ws1, litS "enum", RTok.ws1, RTok.wordCap]]

/-- `/export\s+default\s+(?:async\s+)?function\s+(\w+)/g` -/
def defaultFunctionRegex : List (List RTok) :=
  [[litS "export", RTok.ws1, litS "default", RTok.ws1, litS "async", RTok.ws1,
    litS "function", RTok.ws1, RTok.wordCap],
   [litS "export", RTok.ws1, litS "default", RTok.ws1, litS "function", RTok.ws1, RTok.wordCap]]

/-- `/export\s+default\s+class\s+(\w+)/g` -/
def defaultClassRegex : List (List RTok) :=
  [[litS "export", RTok.ws1, litS "default", RTok.ws1, litS "class", RTok.ws1, RTok.wordCap]]

/-- `/export\s+default\s+(?:const|let|var)\s+(\w+)/g` -/
def defaultConstRegex : List (List RTok) :=
  [[litS "export", RTok.ws1, litS "default", RTok.ws1, litS "const", RTok.ws1, RTok.wordCap],
   [litS "export", RTok.ws1, litS "default", RTok.ws1, litS "let", RTok.ws1, RTok.wordCap],
   [litS "export", RTok.ws1, litS "default", RTok.ws1, litS "var", RTok.ws1, RTok.wordCap]]

/-- `/export\s+default\s+(\w+)\s*=/g` -/
def defaultArrowRegex : List (List RTok) :=
  [[litS "export", RTok.ws1, litS "default", RTok.ws1, RTok.wordCap, RTok.ws0, litS "="]]

/-- `/export\s+const\s+(\w+)\s*=\s*function/g` -/
def functionExpressionRegex : List (List RTok) :=
  [[litS "export", RTok.ws1, litS "const", RTok.ws1, RTok.wordCap, RTok.ws0, litS "=",
    RTok.ws0, litS "function"]]

/-- The backtick character of the template-literal export regex. -/
def backtick : Char := Char.ofNat 96

/-- `/export\s+const\s+(\w+)\s*=\s*[backtick]/g` -/
def templateExportRegex : List (List RTok) :=
  [[litS "export", RTok.ws1, litS "const", RTok.ws1, RTok.wordCap, RTok.ws0, litS "=",
    RTok.ws0, RTok.lit [backtick]]]

/-- `/^exports\.([a-zA-Z_$][a-zA-Z0-9_$]*)\s*=/gm` -/
def exportsRegex : List (List RTok) :=
  [[litS "exports.", RTok.identCap, RTok.ws0, litS "="]]

/-- Multiline regex of `filterReExports` (second revision):
grouped re-export with a `from` clause and a quoted module path. -/
def reExportRegex : List (List RTok) :=
  [[litS "export", RTok.ws0, RTok.lit ['\x7b'], RTok.plusNotInCap ['\x7d'],
    RTok.lit ['\x7d'], RTok.ws0, litS "from", RTok.ws0, RTok.oneOf [squote, '"'],
    RTok.plusNotIn [squote, '"'], RTok.oneOf [squote, '"']]]

/-- Multiline regex of `filterNamedExports` (second revision): grouped
export *not* followed by a `from` clause (negative lookahead). -/
def namedExportRegex : List (List RTok) :=
  [[litS "export", RTok.ws0, RTok.lit ['\x7b'], RTok.plusNotInCap ['\x7d'],
    RTok.lit ['\x7d'], RTok.notWsFrom]]

/-- Multiline regex of `filterCommonJSExports`:
`module.exports = \x7b ... \x7d` object-literal export. -/
def commonJSRegex : List (List RTok) :=
  [[litS "module.exports", RTok.ws0, litS "=", RTok.ws0, RTok.lit ['\x7b'],
    RTok.plusNotInCap ['\x7d'], RTok.lit ['\x7d']]]

/-- Name massaging of `filterReExports` / `filterNamedExports`: split the
brace group on commas; an ` as ` alias keeps the local (right-hand) name,
otherwise the plain name; everything trimmed. -/
def groupAliasNames (cap : String) : List String :=
  (strSplitOn cap ",").map (fun n =>
    let parts := strSplitOn (strTrim n) " as "
    if parts.length > 1 then strTrim (parts.getD 1 "")
    else strTrim (parts.getD 0 ""))

/-- Name massaging of `filterCommonJSExports`: the key before any colon,
trimmed. -/
def commonJSNames (cap : String) : List String :=
  (strSplitOn cap ",").map (fun n => strTrim ((strSplitOn (strTrim n) ":").getD 0 ""))

/-- The full scan sequence of `findFileStructure` (second revision of the
extractor), in source order, as a stream of `(name, kind)` pairs exactly
as they are passed to `addExport`. -/
def scanStream (content : String) : List (String × String) :=
  let cs := content.data
  ((scan false functionRegex cs).map (fun n => (n, "function"))) ++
  ((scan false variableRegex cs).map (fun n => (n, "variable"))) ++
  ((scan false classRegex cs).map (fun n => (n, "class"))) ++
  ((scan false interfaceRegex cs).map (fun n => (n, "interface"))) ++
  ((scan false typeRegex cs).map (fun n => (n, "type"))) ++
  ((scan false enumRegex cs).map (fun n => (n, "enum"))) ++
  ((scan false defaultFunctionRegex cs).map (fun n => (n, "default"))) ++
  ((scan false defaultClassRegex cs).map (fun n => (n, "default"))) ++
  ((scan false defaultConstRegex cs).map (fun n => (n, "default"))) ++
  ((scan false defaultArrowRegex cs).map (fun n => (n, "default"))) ++
  ((scan false functionExpressionRegex cs).map (fun n => (n, "function"))) ++
  ((scan false templateExportRegex cs).map (fun n => (n, "variable"))) ++
  ((scan true exportsRegex cs).map (fun n => (n, "property"))) ++
  ((scan true reExportRegex cs).flatMap
      (fun cap => (groupAliasNames cap).map (fun n => (n, "re-export")))) ++
  ((scan true namedExportRegex cs).flatMap
      (fun cap => (groupAliasNames cap).map (fun n => (n, "named")))) ++
  ((scan true commonJSRegex cs).flatMap
      (fun cap => (commonJSNames cap).map (fun n => (n, "named"))))

/-- The extractor module's global scratch state: the `exports` accumulator
array and the `seenNames` set (modelled as the list of names in insertion
order).  The source never resets either between calls. -/
structure ParserState where
  exports : List StructureInfo
  seenNames : List String
deriving DecidableEq

/-- The pristine state of a freshly loaded extractor module. -/
def freshParserState : ParserState := { exports := [], seenNames := [] }

/-- `addExport`: append the descriptor and record the name unless the name
is empty or already seen. -/
def addExport (st : ParserState) (name type : String) : ParserState :=
  if name ≠ "" && !(st.seenNames.contains name) then
    { exports := st.exports ++ [{ name := name, type := type }],
      seenNames := st.seenNames ++ [name] }
  else st

/-- `findFileStructure` (second revision): nonexistent files return the
empty list without touching the globals; otherwise every scan feeds
`addExport` and the function returns the (shared, accumulated) `exports`
array.  `fs` models `existsSync` and `read` models `readFileSync`. -/
def findFileStructure (st : ParserState) (fs : String → Bool)
    (read : String → String) (filePath : String) : ParserState × List StructureInfo :=
  if !(fs filePath) then (st, [])
  else
    let content := read filePath
    let st2 := (scanStream content).foldl (fun s p => addExport s p.1 p.2) st
    (st2, st2.exports)

/-! Concrete inputs for claim C1. -/

/-- Exports of the analyzed file in the C1 scenario: just `foo`. -/
def c1struct : List StructureInfo := [{ name := "foo", type := "function" }]

/-- One resolved reference record importing both `foo` and the
non-exported name `bar` from the analyzed file. -/
def c1resolver : List FinderResult :=
  [{ reference := some "/a.ts", imported := some ["foo", "bar"],
     filename := "/b.ts", data := "" }]

/-- Re-export oracle that never fires (the C1 record is a direct import). -/
def c1oracle : String → String → List FinderResult → Bool := fun _ _ _ => false

/-! Concrete inputs for claim C2. -/

/-- Exports used in the C2 scenario. -/
def c2struct : List StructureInfo := [{ name := "foo", type := "variable" }]

/-- Search oracle for C2 (never reached: the binary is missing). -/
def c2oracle : String → SpawnResult := fun _ => SpawnResult.closed (some 1) ""

/-! Concrete inputs for claim C3. -/

/-- Filesystem of the C3 scenario: two files exist. -/
def c3fs : String → Bool := fun p => p == "/A.ts" || p == "/B.ts"

/-- Contents of the C3 scenario: `/A.ts` exports `a`, `/B.ts` exports `b`. -/
def c3read : String → String := fun p =>
  if p == "/A.ts" then "export function a"
  else if p == "/B.ts" then "export function b" else ""

/-! Concrete inputs for claim C5. -/

/-- Exports of the analyzed file in the C5 scenario. -/
def c5struct : List StructureInfo := [{ name := "foo", type := "function" }]

/-- Two reference records from the same consumer file importing `foo` —
exactly what `findPathResolver` produces for a file containing the
same statement twice (or an ES6 form plus a `require` form). -/
def c5resolver : List FinderResult :=
  [{ reference := some "/a.ts", imported := some ["foo"],
     filename := "/b.ts", data := "import twice" },
   { reference := some "/a.ts", imported := some ["foo"],
     filename := "/b.ts", data := "import twice" }]

/-- Re-export oracle that never fires in the C5 scenario. -/
def c5oracle : String → String → List FinderResult → Bool := fun _ _ _ => false

/-! Concrete inputs for claim C4. -/

/-- Exports of the analyzed file in the C4 scenario: one default export
`d`, whose first generated pattern is `import\s+d\s+from`. -/
def c4struct : List StructureInfo := [{ name := "d", type := "default" }]

/-- Search oracle for C4: the first generated pattern succeeds with a
match in `f.ts`; the second generated pattern
(`const\s+d\s*=\s*require\(`) exits with code 2; everything else finds
nothing. -/
def c4oracle : String → SpawnResult := fun p =>
  if p == "import\\s+d\\s+from" then
    SpawnResult.closed (some 0) "f.ts:import d from x"
  else if p == "const\\s+d\\s*=\\s*require\\(" then
    SpawnResult.closed (some 2) ""
  else SpawnResult.closed (some 1) ""

/-! Concrete inputs for claim C9. -/

/-- Exports of the analyzed file in the C9 scenario. -/
def c9struct : List StructureInfo := [{ name := "d", type := "default" }]

/-- Search oracle for C9: the first pattern returns two *distinct* matched
lines for `f.ts`, the second of which (`abc`) is a substring of the first
(`abc def`); all other patterns find nothing. -/
def c9oracle : String → SpawnResult := fun p =>
  if p == "import\\s+d\\s+from" then
    SpawnResult.closed (some 0) "f.ts:abc def\nf.ts:abc"
  else SpawnResult.closed (some 1) ""

/-! Concrete inputs for claim C6. -/

/-- Filesystem of the C6 scenario: a file exists *outside* the project
root `/proj`. -/
def c6fs : String → Bool := fun p => p == "/outside/x.ts"

/-- Wildcard alias table of the C6 scenario (`*` patterns occur in real
tsconfig `paths` tables); its target directory lies outside the root. -/
def c6alias : List AliasConfig := [{ key := "*", value := "/elsewhere" }]

/-- The probe sequence of `findFileWithExtension`, written out as the
spec describes it: the bare path when it already carries an extension,
otherwise the path with every allowed extension appended, then the
`index` files, both in the configured priority order. -/
def extensionCandidates (basePath : String) : List String :=
  if extname basePath ≠ "" then [basePath]
  else (allowedExtensions.map (fun ext => basePath ++ ext)) ++
       (allowedExtensions.map (fun ext => basePath ++ "/index" ++ ext))

/-- The invariant of one emitted resolver record, shared by the three
per-match bodies. -/
def goodRecord (fs : String → Bool) (r : FinderResult) : Prop :=
  (∃ l, r.imported = some l ∧ l ≠ []) ∧ (∃ p, r.reference = some p ∧ fs p = true)

/-- Filesystem of the C10 witness scenario. -/
def c10fs : String → Bool := fun p => p == "/u.ts"

/-- ES6 match oracle of the C10 witness scenario: one named import of
`foo` from `./u`. -/
def c10match : String → List (String × String) := fun _ => [("foo", "./u")]

/-- Empty match oracle for the other three extractors in the C10 witness. -/
def c10none : String → List (String × String) := fun _ => []

/-- Input record list of the C10 witness scenario. -/
def c10files : List FinderResult :=
  [{ reference := none, imported := none, filename := "/c.ts", data := "import" }]

/-- The single connection of the C1 scenario. -/
def c1conn : DependencyConnection :=
  { id := 1, fromPath := "/a.ts", toPath := "/b.ts", type := "direct",
    exports := ["foo", "bar"] }

/-- First-seen deduplication as the spec words it: walk the `(name, kind)`
stream, keep a name's first occurrence (with its first kind), drop empty
names and repeats. -/
def firstSeenFrom (acc : List StructureInfo) : List (String × String) → List StructureInfo
  | [] => acc
  | p :: rest =>
      if p.1 ≠ "" && !((acc.map StructureInfo.name).contains p.1) then
        firstSeenFrom (acc ++ [{ name := p.1, type := p.2 }]) rest
      else firstSeenFrom acc rest

/-- Spec-side description of the extractor's output on a fresh run. -/
def firstSeenSpec (l : List (String × String)) : List StructureInfo :=
  firstSeenFrom [] l

/-- C1: the claim that every name in a connection's `exports` appears in
the graph's `exports` is false: a record importing `foo` (exported) and
`bar` (not exported) passes the some-match guard, and the connection
copies the *whole* imported list, so `bar` appears in the connection but
not in the graph's export list. -/
theorem c1_counterexample :
    (findCorrelation c1oracle "/a.ts" c1struct c1resolver).connections =
      [{ id := 1, fromPath := "/a.ts", toPath := "/b.ts", type := "direct",
         exports := ["foo", "bar"] }] ∧
    "bar" ∈ ["foo", "bar"] ∧
    "bar" ∉ ((findCorrelation c1oracle "/a.ts" c1struct c1resolver).exports.map
      StructureInfo.name) := by
  refine ⟨rfl, ?_, ?_⟩ <;> decide

/-- C2: with an unresolvable ripgrep binary and a non-empty exports list,
`findPatternReferences` throws `Ripgrep binary not found` instead of
returning the empty list. -/
theorem c2_counterexample :
    findPatternReferences none c2oracle c2struct =
      Except.error "Ripgrep binary not found" ∧
    findPatternReferences none c2oracle c2struct ≠ Except.ok [] := by
  refine ⟨rfl, ?_⟩
  intro h
  exact Except.noConfusion h

/-- C2 (amended): a missing binary always raises the error (for every
search oracle and exports list), while an empty exports list — which
generates no patterns — returns the empty list. -/
theorem c2_amended :
    (∀ (search : String → SpawnResult) (fileStructure : List StructureInfo),
      findPatternReferences none search fileStructure =
        Except.error "Ripgrep binary not found") ∧
    (∀ (rg : String) (search : String → SpawnResult),
      findPatternReferences (some rg) search [] = Except.ok []) :=
  ⟨fun _ _ => rfl, fun _ _ => rfl⟩

/-- C3: the extractor's module-global `exports` array and `seenNames` set
are never reset, so analyzing `/A.ts` and then `/B.ts` returns `/A.ts`'s
symbol inside `/B.ts`'s result — the symbol table of a file is *not*
independent of previously analyzed files. -/
theorem c3_state_leak :
    (findFileStructure
        (findFileStructure freshParserState c3fs c3read "/A.ts").1
        c3fs c3read "/B.ts").2 =
      [{ name := "a", type := "function" }, { name := "b", type := "function" }] ∧
    (findFileStructure freshParserState c3fs c3read "/B.ts").2 =
      [{ name := "b", type := "function" }] ∧
    (findFileStructure
        (findFileStructure freshParserState c3fs c3read "/A.ts").1
        c3fs c3read "/B.ts").2 ≠
      (findFileStructure freshParserState c3fs c3read "/B.ts").2 := by
  refine ⟨?_, ?_, ?_⟩ <;> decide

/-- C5: `findCorrelation` performs no deduplication of
`(from, to, kind)` triples: two matching records from the same consumer
yield two `direct` connections with identical triples (only the ids
differ). -/
theorem c5_counterexample :
    ¬ ((findCorrelation c5oracle "/a.ts" c5struct c5resolver).connections.map
        (fun c => (c.fromPath, c.toPath, c.type))).Nodup := by
  decide

/-- C4: an out-of-range exit code for one pattern does *not* merely omit
that pattern's contribution — the rejection propagates to the outer
`catch`, which returns the empty list, discarding the match already
gathered from the first pattern. -/
theorem c4_counterexample :
    findPatternReferences (some "rg") c4oracle c4struct = Except.ok [] ∧
    c4oracle "import\\s+d\\s+from" =
      SpawnResult.closed (some 0) "f.ts:import d from x" ∧
    applyOutput [] "f.ts:import d from x" ≠ [] := by
  refine ⟨rfl, rfl, ?_⟩
  decide

/-- C9: deduplication is by substring containment, not by exact line
content: the distinct line `abc` is dropped because it occurs inside the
already-recorded line `abc def`, so not every distinct line is kept. -/
theorem c9_counterexample :
    findPatternReferences (some "rg") c9oracle c9struct =
      Except.ok [{ reference := none, imported := none,
                   filename := "f.ts", data := "abc def" }] ∧
    "abc" ≠ "abc def" ∧
    "abc" ∉ (strSplitOn "abc def" "\n") := by
  refine ⟨rfl, ?_, ?_⟩ <;> decide

/-- C6: a `../` import that escapes the project root is *not* rejected:
the relative branch falls through to alias resolution, and a matching
wildcard alias resolves it to an existing file outside `projectRoot`. -/
theorem c6_counterexample :
    resolveImportPath c6fs "../outside/x" "/proj/a.ts" "/proj" c6alias =
      some "/outside/x.ts" ∧
    (strStartsWith "../outside/x" "../") = true ∧
    (strStartsWith "/outside/x.ts" "/proj") = false := by
  refine ⟨?_, rfl, ?_⟩ <;> decide

/-- Searching a mapped list is searching the original under composition. -/
theorem find?_over_map {α β : Type} (f : α → β) (p : β → Bool) (l : List α) :
    (l.map f).find? p = (l.find? (fun a => p (f a))).map f := by
  induction l with
  | nil => rfl
  | cons a rest ih =>
      by_cases h : p (f a) = true
      · simp [List.find?, h]
      · simp only [Bool.not_eq_true] at h
        simp [List.find?, h, ih]

/-- Searching a concatenation searches the left part first. -/
theorem find?_over_append {α : Type} (p : α → Bool) (l₁ l₂ : List α) :
    (l₁ ++ l₂).find? p = ((l₁.find? p).orElse (fun _ => l₂.find? p)) := by
  induction l₁ with
  | nil => rfl
  | cons a rest ih =>
      by_cases h : p a = true
      · simp [List.find?, h]
      · simp only [Bool.not_eq_true] at h
        simp [List.find?, h, ih]

/-- Equation between the probing loops and a single `find?` over the
candidate sequence (shared helper). -/
theorem findFileWithExtension_eq_find (fs : String → Bool) (basePath : String) :
    findFileWithExtension fs basePath = (extensionCandidates basePath).find? fs := by
  unfold findFileWithExtension extensionCandidates
  by_cases h : extname basePath ≠ ""
  · simp [h, List.find?]
  · simp only [h, if_false, ite_false]
    rw [find?_over_append, find?_over_map, find?_over_map]
    cases h1 : allowedExtensions.find? (fun ext => fs (basePath ++ ext)) with
    | some ext => simp [Option.orElse]
    | none =>
        simp only [Option.map_none, Option.orElse]
        cases h2 : allowedExtensions.find? (fun ext => fs (basePath ++ "/index" ++ ext)) with
        | some ext => simp
        | none => simp

/-- C8: `findFileWithExtension` returns exactly the first existing entry of
the candidate sequence — an explicitly-extended path is confirmed as-is,
extension probes precede `index` probes, each in configured order, and the
result is `none` precisely when `find?` over the candidates fails. -/
theorem c8_probe_order (fs : String → Bool) (basePath : String) :
    findFileWithExtension fs basePath = (extensionCandidates basePath).find? fs :=
  findFileWithExtension_eq_find fs basePath

/-- Every path returned by `findFileWithExtension` passed the existence
check. -/
theorem findFileWithExtension_exists (fs : String → Bool) (basePath p : String)
    (h : findFileWithExtension fs basePath = some p) : fs p = true := by
  rw [findFileWithExtension_eq_find] at h
  exact List.find?_some h

/-- Every path returned by the alias loop passed the existence check. -/
theorem aliasLoop_exists (fs : String → Bool) (nip : String) (p : String) :
    ∀ cfg : List AliasConfig, aliasLoop fs nip cfg = some (some p) → fs p = true := by
  intro cfg
  induction cfg with
  | nil => intro h; exact Option.noConfusion h
  | cons al rest ih =>
      intro h
      unfold aliasLoop at h
      by_cases hstar : strIncludes (normalizePath al.key) "*" = true
      · simp only [hstar, if_true] at h
        by_cases hpre : strStartsWith nip (replaceFirst (normalizePath al.key) "*" "") = true
        · simp only [hpre, if_true] at h
          exact findFileWithExtension_exists fs _ p (Option.some.inj h)
        · simp only [Bool.not_eq_true] at hpre
          simp only [hpre, Bool.false_eq_true, if_false] at h
          exact ih h
      · simp only [Bool.not_eq_true] at hstar
        simp only [hstar, Bool.false_eq_true, if_false] at h
        by_cases heq : (nip == normalizePath al.key) = true
        · simp only [heq, if_true] at h
          exact findFileWithExtension_exists fs _ p (Option.some.inj h)
        · simp only [Bool.not_eq_true] at heq
          simp only [heq, Bool.false_eq_true, if_false] at h
          exact ih h

/-- Every path returned by `aliasNonRelativePath` passed the existence
check. -/
theorem aliasNonRelativePath_exists (fs : String → Bool) (nip root p : String)
    (cfg : List AliasConfig) (h : aliasNonRelativePath fs nip root cfg = some p) :
    fs p = true := by
  unfold aliasNonRelativePath at h
  by_cases hdot : (!(strStartsWith nip ".")) = true
  · simp only [hdot, if_true] at h
    cases hl : aliasLoop fs nip cfg with
    | some r =>
        rw [hl] at h
        change r = some p at h
        exact aliasLoop_exists fs nip p cfg (by rw [hl, h])
    | none =>
        rw [hl] at h
        change findFileWithExtension fs (pathResolve root nip) = some p at h
        exact findFileWithExtension_exists fs _ p h
  · simp only [Bool.not_eq_true] at hdot
    simp only [hdot, Bool.false_eq_true, if_false] at h
    exact Option.noConfusion h

/-- Every path returned by `aliasRelativePath` passed the existence check. -/
theorem aliasRelativePath_exists (fs : String → Bool) (nip p : String)
    (cfg : List AliasConfig) (h : aliasRelativePath fs nip cfg = some p) :
    fs p = true := by
  unfold aliasRelativePath at h
  cases hl : aliasLoop fs nip cfg with
  | some r =>
      rw [hl] at h
      change r = some p at h
      exact aliasLoop_exists fs nip p cfg (by rw [hl, h])
  | none =>
      rw [hl] at h
      change (none : Option String) = some p at h
      exact Option.noConfusion h

/-- Every path returned by `resolveImportPath` passed the existence check:
all control paths funnel through `findFileWithExtension`. -/
theorem resolveImportPath_exists (fs : String → Bool)
    (importPath fromFile projectRoot p : String) (cfg : List AliasConfig)
    (h : resolveImportPath fs importPath fromFile projectRoot cfg = some p) :
    fs p = true := by
  unfold resolveImportPath at h
  by_cases hrel : (strStartsWith importPath "./" || strStartsWith importPath "../") = true
  · simp only [hrel, if_true] at h
    by_cases hin : strStartsWith
        (pathNormalize (pathResolve (dirname fromFile) importPath))
        (pathNormalize projectRoot) = true
    · simp only [hin, if_true] at h
      exact findFileWithExtension_exists fs _ p h
    · simp only [Bool.not_eq_true] at hin
      simp only [hin, Bool.false_eq_true, if_false] at h
      cases hn : aliasNonRelativePath fs (normalizePath importPath) projectRoot cfg with
      | some r =>
          rw [hn] at h
          change some r = some p at h
          exact aliasNonRelativePath_exists fs _ projectRoot p cfg (hn.trans h)
      | none =>
          rw [hn] at h
          change aliasRelativePath fs (normalizePath importPath) cfg = some p at h
          exact aliasRelativePath_exists fs _ p cfg h
  · simp only [Bool.not_eq_true] at hrel
    simp only [hrel, Bool.false_eq_true, if_false] at h
    cases hn : aliasNonRelativePath fs (normalizePath importPath) projectRoot cfg with
    | some r =>
        rw [hn] at h
        change some r = some p at h
        exact aliasNonRelativePath_exists fs _ projectRoot p cfg (hn.trans h)
    | none =>
        rw [hn] at h
        change aliasRelativePath fs (normalizePath importPath) cfg = some p at h
        exact aliasRelativePath_exists fs _ p cfg h

/-- Records emitted by the list-import body satisfy the invariant. -/
theorem processListImport_good (fs : String → Bool) (root : String)
    (cfg : List AliasConfig) (filename data : String) (m : String × String)
    (r : FinderResult) (h : processListImport fs root cfg filename data m = some r) :
    goodRecord fs r := by
  unfold processListImport at h
  by_cases hg : (((strSplitOn m.1 ",").map strTrim).filter
      (fun s => s.length > 0)).length > 0 && m.2 ≠ "" 
  · rw [if_pos hg] at h
    cases hres : resolveImportPath fs m.2 filename root cfg with
    | some rp =>
        rw [hres] at h
        refine ⟨⟨((strSplitOn m.1 ",").map strTrim).filter (fun s => s.length > 0),
          ?_, ?_⟩, ⟨rp, ?_, ?_⟩⟩
        · rw [← Option.some.inj h]
        · have hlen := (Bool.and_eq_true _ _ |>.mp hg).1
          intro hnil
          rw [hnil] at hlen
          simp at hlen
        · rw [← Option.some.inj h]
        · exact resolveImportPath_exists fs m.2 filename root rp cfg hres
    | none => rw [hres] at h; exact Option.noConfusion h
  · rw [if_neg hg] at h
    exact Option.noConfusion h

/-- Records emitted by the single-import body satisfy the invariant. -/
theorem processSingleImport_good (fs : String → Bool) (root : String)
    (cfg : List AliasConfig) (filename data : String) (m : String × String)
    (r : FinderResult) (h : processSingleImport fs root cfg filename data m = some r) :
    goodRecord fs r := by
  unfold processSingleImport at h
  by_cases hg : m.1 ≠ "" && m.2 ≠ "" 
  · rw [if_pos hg] at h
    cases hres : resolveImportPath fs m.2 filename root cfg with
    | some rp =>
        rw [hres] at h
        refine ⟨⟨[m.1], ?_, by simp⟩, ⟨rp, ?_, ?_⟩⟩
        · rw [← Option.some.inj h]
        · rw [← Option.some.inj h]
        · exact resolveImportPath_exists fs m.2 filename root rp cfg hres
    | none => rw [hres] at h; exact Option.noConfusion h
  · rw [if_neg hg] at h
    exact Option.noConfusion h

/-- Records emitted by the CommonJS-default body satisfy the invariant. -/
theorem processCJSDefault_good (fs : String → Bool) (root : String)
    (cfg : List AliasConfig) (filename data : String) (m : String × String)
    (r : FinderResult) (h : processCJSDefault fs root cfg filename data m = some r) :
    goodRecord fs r := by
  unfold processCJSDefault at h
  by_cases hg : ([m.1] : List String).length > 0 && m.2 ≠ "" 
  · rw [if_pos hg] at h
    cases hres : resolveImportPath fs m.2 filename root cfg with
    | some rp =>
        rw [hres] at h
        refine ⟨⟨[m.1], ?_, by simp⟩, ⟨rp, ?_, ?_⟩⟩
        · rw [← Option.some.inj h]
        · rw [← Option.some.inj h]
        · exact resolveImportPath_exists fs m.2 filename root rp cfg hres
    | none => rw [hres] at h; exact Option.noConfusion h
  · rw [if_neg hg] at h
    exact Option.noConfusion h

/-- C10: every record returned by `findPathResolver` carries a non-empty
list of imported names and a resolved reference that exists in the
filesystem at resolution time (records whose raw path is empty, whose
name list is empty, or whose path does not resolve to an existing file
are never emitted — the `if` guards and `resolveImportPath` match in each
extractor body discard them). -/
theorem c10_resolver_invariant (fs : String → Bool) (projectRoot : String)
    (projectConfig : List AliasConfig)
    (mES6 mES6Default mCJSDestructuring mCJSDefault : String → List (String × String))
    (filePattern : List FinderResult) (r : FinderResult)
    (hr : r ∈ findPathResolver fs projectRoot projectConfig
        mES6 mES6Default mCJSDestructuring mCJSDefault filePattern) :
    (∃ l, r.imported = some l ∧ l ≠ []) ∧
    (∃ p, r.reference = some p ∧ fs p = true) := by
  unfold findPathResolver at hr
  rw [List.mem_flatMap] at hr
  obtain ⟨src, _, hmem⟩ := hr
  rw [List.mem_append] at hmem
  rcases hmem with hmem | h4
  · rw [List.mem_append] at hmem
    rcases hmem with hmem | h3
    · rw [List.mem_append] at hmem
      rcases hmem with h1 | h2
      · obtain ⟨m, _, hm⟩ := List.mem_filterMap.mp h1
        exact processListImport_good fs projectRoot projectConfig src.filename src.data m r hm
      · obtain ⟨m, _, hm⟩ := List.mem_filterMap.mp h2
        exact processSingleImport_good fs projectRoot projectConfig src.filename src.data m r hm
    · obtain ⟨m, _, hm⟩ := List.mem_filterMap.mp h3
      exact processListImport_good fs projectRoot projectConfig src.filename src.data m r hm
  · obtain ⟨m, _, hm⟩ := List.mem_filterMap.mp h4
    exact processCJSDefault_good fs projectRoot projectConfig src.filename src.data m r hm

/-- Witness for C10 at a concrete input. -/
theorem c10_resolver_invariant_witness :
    (∃ l, ({ reference := some "/u.ts", imported := some ["foo"],
             filename := "/c.ts", data := "import" } : FinderResult).imported =
        some l ∧ l ≠ []) ∧
    (∃ p, ({ reference := some "/u.ts", imported := some ["foo"],
             filename := "/c.ts", data := "import" } : FinderResult).reference =
        some p ∧ c10fs p = true) :=
  c10_resolver_invariant c10fs "/" [] c10match c10none c10none c10none c10files
    { reference := some "/u.ts", imported := some ["foo"],
      filename := "/c.ts", data := "import" }
    (by decide)

/-- Every connection produced by the correlator loop stems from an input
record that passed the matching-imports guard and copies that record's
whole imported list into its `exports` field. -/
theorem corrLoop_mem_spec (o : String → String → List FinderResult → Bool)
    (fp : String) (fsOut : List StructureInfo) (pr : List FinderResult) :
    ∀ (l : List FinderResult) (cid : Nat) (c : DependencyConnection),
      c ∈ corrLoop o fp fsOut pr l cid →
      ∃ r ∈ l, hasMatchingImports fsOut fp r = true ∧
        c.exports = r.imported.getD [] := by
  intro l
  induction l with
  | nil => intro cid c h; simp [corrLoop] at h
  | cons r rest ih =>
      intro cid c h
      unfold corrLoop at h
      by_cases hm : hasMatchingImports fsOut fp r = true
      · rw [if_pos hm] at h
        cases hcl : classify o fp pr r with
        | some pair =>
            rw [hcl] at h
            rcases List.mem_cons.mp h with hc | hc
            · exact ⟨r, List.mem_cons_self r rest, hm, by rw [hc]⟩
            · obtain ⟨r2, hr2, hm2, he2⟩ := ih (cid + 1) c hc
              exact ⟨r2, List.mem_cons_of_mem r hr2, hm2, he2⟩
        | none =>
            rw [hcl] at h
            obtain ⟨r2, hr2, hm2, he2⟩ := ih cid c h
            exact ⟨r2, List.mem_cons_of_mem r hr2, hm2, he2⟩
      · rw [if_neg hm] at h
        obtain ⟨r2, hr2, hm2, he2⟩ := ih cid c h
        exact ⟨r2, List.mem_cons_of_mem r hr2, hm2, he2⟩

/-- C1 (amended): a connection's `exports` list is the source record's
*entire* imported list, which is guaranteed non-empty and to contain at
least one genuinely exported name — unless the match came through the
default-export clause, in which case only the presence of a `default`
entry in the export table is guaranteed; individual entries of
`exports` need not appear in the graph's export list. -/
theorem c1_amended (o : String → String → List FinderResult → Bool)
    (filePath : String) (fileStructure : List StructureInfo)
    (pathResolver : List FinderResult) (c : DependencyConnection)
    (hc : c ∈ (findCorrelation o filePath fileStructure pathResolver).connections) :
    c.exports ≠ [] ∧
    ((∃ n ∈ c.exports, ∃ s ∈ fileStructure, s.name = n) ∨
     (∃ s ∈ fileStructure, s.type = "default")) := by
  obtain ⟨r, _, hm, he⟩ := corrLoop_mem_spec o filePath fileStructure pathResolver
    pathResolver 1 c hc
  unfold hasMatchingImports at hm
  obtain ⟨n, hn, hany⟩ := List.any_eq_true.mp hm
  obtain ⟨s, hs, hcond⟩ := List.any_eq_true.mp hany
  constructor
  · intro hnil
    rw [he] at hnil
    rw [hnil] at hn
    exact List.not_mem_nil n hn
  · rcases Bool.or_eq_true _ _ |>.mp hcond with hname | hdef
    · exact Or.inl ⟨n, he ▸ hn, s, hs, beq_iff_eq.mp hname⟩
    · exact Or.inr ⟨s, hs, beq_iff_eq.mp (Bool.and_eq_true _ _ |>.mp hdef).1⟩

/-- Witness for the amended C1 at the concrete C1 scenario. -/
theorem c1_amended_witness :
    c1conn.exports ≠ [] ∧
    ((∃ n ∈ c1conn.exports, ∃ s ∈ c1struct, s.name = n) ∨
     (∃ s ∈ c1struct, s.type = "default")) :=
  c1_amended c1oracle "/a.ts" c1struct c1resolver c1conn (by decide)

/-- Lower bound on connection ids: the loop never assigns an id below the
counter it starts from. -/
theorem corrLoop_id_lower (o : String → String → List FinderResult → Bool)
    (fp : String) (fsOut : List StructureInfo) (pr : List FinderResult) :
    ∀ (l : List FinderResult) (cid : Nat) (c : DependencyConnection),
      c ∈ corrLoop o fp fsOut pr l cid → cid ≤ c.id := by
  intro l
  induction l with
  | nil => intro cid c h; simp [corrLoop] at h
  | cons r rest ih =>
      intro cid c h
      unfold corrLoop at h
      by_cases hm : hasMatchingImports fsOut fp r = true
      · rw [if_pos hm] at h
        cases hcl : classify o fp pr r with
        | some pair =>
            rw [hcl] at h
            rcases List.mem_cons.mp h with hc | hc
            · rw [hc]
            · exact Nat.le_of_succ_le (ih (cid + 1) c hc)
        | none => rw [hcl] at h; exact ih cid c h
      · rw [if_neg hm] at h
        exact ih cid c h

/-- Connection ids produced by the loop are pairwise distinct. -/
theorem corrLoop_ids_nodup (o : String → String → List FinderResult → Bool)
    (fp : String) (fsOut : List StructureInfo) (pr : List FinderResult) :
    ∀ (l : List FinderResult) (cid : Nat),
      ((corrLoop o fp fsOut pr l cid).map DependencyConnection.id).Nodup := by
  intro l
  induction l with
  | nil => intro cid; simp [corrLoop]
  | cons r rest ih =>
      intro cid
      unfold corrLoop
      by_cases hm : hasMatchingImports fsOut fp r = true
      · rw [if_pos hm]
        cases hcl : classify o fp pr r with
        | some pair =>
            simp only [List.map_cons, List.nodup_cons]
            refine ⟨?_, ih (cid + 1)⟩
            intro hmem
            obtain ⟨c, hc, hcid⟩ := List.mem_map.mp hmem
            have := corrLoop_id_lower o fp fsOut pr rest (cid + 1) c hc
            omega
        | none => exact ih cid
      · rw [if_neg hm]
        exact ih cid

/-- C5 (amended): the correlator performs no deduplication of
`(from, to, kind)` triples — each accepted record yields its own
connection — but the connections are pairwise distinguishable by their
`id`s, assigned consecutively from 1 in processing order. -/
theorem c5_amended (o : String → String → List FinderResult → Bool)
    (filePath : String) (fileStructure : List StructureInfo)
    (pathResolver : List FinderResult) :
    (((findCorrelation o filePath fileStructure pathResolver).connections).map
      DependencyConnection.id).Nodup :=
  corrLoop_ids_nodup o filePath fileStructure pathResolver pathResolver 1

/-- If any pattern in the list fails, the sequential search loop aborts
with an error (the first failure encountered rejects the enclosing
promise chain). -/
theorem finderLoop_error_of_bad (search : String → SpawnResult) :
    ∀ (ps : List String) (acc : List FinderResult),
      (∃ p ∈ ps, ∃ e, runSearch search p = Except.error e) →
      ∃ e2, finderLoop search ps acc = Except.error e2 := by
  intro ps
  induction ps with
  | nil => intro acc h; obtain ⟨p, hp, _⟩ := h; exact absurd hp (List.not_mem_nil p)
  | cons q rest ih =>
      intro acc h
      unfold finderLoop
      cases hq : runSearch search q with
      | error e => exact ⟨e, rfl⟩
      | ok out =>
          obtain ⟨p, hp, e, he⟩ := h
          rcases List.mem_cons.mp hp with hpq | hpr
          · rw [hpq] at he; rw [he] at hq; exact Except.noConfusion hq
          · exact ih (applyOutput acc out) ⟨p, hpr, e, he⟩

/-- C4 (amended): a search-engine exit status outside the success range for
*any* generated pattern does not merely omit that pattern's contribution —
the rejection reaches the enclosing `catch`, which discards all previously
gathered and all subsequent results and returns the empty list for the
whole call. -/
theorem c4_amended (rg : String) (search : String → SpawnResult)
    (fileStructure : List StructureInfo)
    (h : ∃ p ∈ fileStructure.flatMap searchPatternsFor,
        ∃ e, runSearch search p = Except.error e) :
    findPatternReferences (some rg) search fileStructure = Except.ok [] := by
  obtain ⟨e2, he2⟩ :=
    finderLoop_error_of_bad search (fileStructure.flatMap searchPatternsFor) [] h
  unfold findPatternReferences
  change (match finderLoop search (fileStructure.flatMap searchPatternsFor) [] with
    | Except.ok res => Except.ok res
    | Except.error _ => Except.ok []) = Except.ok []
  rw [he2]

/-- Witness for the amended C4 at the concrete C4 scenario. -/
theorem c4_amended_witness :
    findPatternReferences (some "rg") c4oracle c4struct = Except.ok [] :=
  c4_amended "rg" c4oracle c4struct
    ⟨"const\\s+d\\s*=\\s*require\\(", by decide, "ripgrep failed", rfl⟩

/-- C6 (amended): a `./` or `../` import is resolved against the importing
file's directory and probed there whenever the result stays inside
`projectRoot`; when it falls outside, the reference is *not* rejected
outright — alias resolution is still attempted (and, per
`c6_counterexample`, a matching wildcard alias can then return a target
outside the root) — but with an empty alias table a `../` import that
escapes the root does resolve to absent. -/
theorem c6_amended (fs : String → Bool) (importPath fromFile projectRoot : String)
    (h1 : (strStartsWith importPath "./" || strStartsWith importPath "../") = true)
    (h2 : strStartsWith (normalizePath importPath) "." = true) :
    resolveImportPath fs importPath fromFile projectRoot [] =
      (if strStartsWith (pathNormalize (pathResolve (dirname fromFile) importPath))
            (pathNormalize projectRoot) = true
       then findFileWithExtension fs
          (pathNormalize (pathResolve (dirname fromFile) importPath))
       else none) := by
  unfold resolveImportPath
  rw [if_pos h1]
  by_cases hin : strStartsWith
      (pathNormalize (pathResolve (dirname fromFile) importPath))
      (pathNormalize projectRoot) = true
  · rw [if_pos hin, if_pos hin]
  · simp only [Bool.not_eq_true] at hin
    simp only [hin, Bool.false_eq_true, if_false]
    unfold aliasNonRelativePath
    rw [h2]
    simp only [Bool.not_true, Bool.false_eq_true, if_false]
    unfold aliasRelativePath aliasLoop
    rfl

/-- Witness for the amended C6 at a concrete escaping `../` import with no
aliases configured. -/
theorem c6_amended_witness :
    ((strStartsWith "../x" "./" || strStartsWith "../x" "../") = true) ∧
    (strStartsWith (normalizePath "../x") "." = true) ∧
    resolveImportPath (fun _ => false) "../x" "/proj/a.ts" "/proj" [] =
      (if strStartsWith (pathNormalize (pathResolve (dirname "/proj/a.ts") "../x"))
            (pathNormalize "/proj") = true
       then findFileWithExtension (fun _ => false)
          (pathNormalize (pathResolve (dirname "/proj/a.ts") "../x"))
       else none) :=
  ⟨rfl, rfl, c6_amended (fun _ => false) "../x" "/proj/a.ts" "/proj" rfl rfl⟩

/-- Filename multiset evolution of one merge step: either an existing
entry absorbed the line (filenames unchanged) or a fresh filename was
appended. -/
theorem mergeLine_filenames (f c : String) :
    ∀ acc : List FinderResult,
      (mergeLine acc f c).map FinderResult.filename = acc.map FinderResult.filename ∨
      ((mergeLine acc f c).map FinderResult.filename =
          acc.map FinderResult.filename ++ [f] ∧
        f ∉ acc.map FinderResult.filename) := by
  intro acc
  induction acc with
  | nil => exact Or.inr ⟨rfl, List.not_mem_nil f⟩
  | cons r rest ih =>
      unfold mergeLine
      by_cases hf : (r.filename == f) = true
      · rw [if_pos hf]
        by_cases hinc : strIncludes r.data c = true
        · rw [if_pos hinc]; exact Or.inl rfl
        · rw [if_neg hinc]; exact Or.inl rfl
      · rw [if_neg hf]
        rcases ih with heq | ⟨heq, hnot⟩
        · exact Or.inl (by simp only [List.map_cons, heq])
        · refine Or.inr ⟨by simp only [List.map_cons, heq, List.cons_append], ?_⟩
          intro hmem
          rcases List.mem_cons.mp hmem with hh | ht
          · exact hf (by rw [hh, beq_self_eq_true])
          · exact hnot ht

/-- Merging preserves distinctness of filenames. -/
theorem mergeLine_nodup (f c : String) (acc : List FinderResult)
    (h : (acc.map FinderResult.filename).Nodup) :
    ((mergeLine acc f c).map FinderResult.filename).Nodup := by
  rcases mergeLine_filenames f c acc with heq | ⟨heq, hnot⟩
  · rwa [heq]
  · rw [heq]
    simp [List.nodup_append, h, hnot]

/-- Folding a whole parsed output preserves distinctness of filenames. -/
theorem foldMerge_nodup :
    ∀ (ps : List (String × String)) (acc : List FinderResult),
      (acc.map FinderResult.filename).Nodup →
      ((ps.foldl (fun a p => mergeLine a p.1 p.2) acc).map
        FinderResult.filename).Nodup := by
  intro ps
  induction ps with
  | nil => intro acc h; exact h
  | cons p rest ih =>
      intro acc h
      simp only [List.foldl_cons]
      exact ih (mergeLine acc p.1 p.2) (mergeLine_nodup p.1 p.2 acc h)

/-- The search loop preserves distinctness of filenames in its
accumulator. -/
theorem finderLoop_nodup (search : String → SpawnResult) :
    ∀ (ps : List String) (acc res : List FinderResult),
      (acc.map FinderResult.filename).Nodup →
      finderLoop search ps acc = Except.ok res →
      (res.map FinderResult.filename).Nodup := by
  intro ps
  induction ps with
  | nil =>
      intro acc res h heq
      unfold finderLoop at heq
      rw [← Except.ok.inj heq]
      exact h
  | cons q rest ih =>
      intro acc res h heq
      unfold finderLoop at heq
      cases hq : runSearch search q with
      | error e => rw [hq] at heq; exact Except.noConfusion heq
      | ok out =>
          rw [hq] at heq
          exact ih (applyOutput acc out) res
            (foldMerge_nodup (parseLines out) acc h) heq

/-- C9 (amended): matched lines are aggregated into at most one candidate
per filename (the result never repeats a filename), and a line is skipped
exactly when the *substring* check fires: if the first entry for the
filename already contains the line's content as a substring — not only
when it equals a recorded line — the merge leaves the accumulator
unchanged. -/
theorem c9_amended :
    (∀ (rg : String) (search : String → SpawnResult)
        (fileStructure : List StructureInfo) (res : List FinderResult),
      findPatternReferences (some rg) search fileStructure = Except.ok res →
      (res.map FinderResult.filename).Nodup) ∧
    (∀ (acc : List FinderResult) (f c : String) (r : FinderResult),
      acc.find? (fun x => x.filename == f) = some r →
      strIncludes r.data c = true →
      mergeLine acc f c = acc) := by
  constructor
  · intro rg search fileStructure res h
    unfold findPatternReferences at h
    change (match finderLoop search (fileStructure.flatMap searchPatternsFor) [] with
      | Except.ok r0 => Except.ok r0
      | Except.error _ => Except.ok []) = Except.ok res at h
    cases hl : finderLoop search (fileStructure.flatMap searchPatternsFor) [] with
    | ok res0 =>
        rw [hl] at h
        change Except.ok res0 = Except.ok res at h
        rw [← Except.ok.inj h]
        exact finderLoop_nodup search (fileStructure.flatMap searchPatternsFor)
          [] res0 (by simp) hl
    | error e =>
        rw [hl] at h
        change Except.ok [] = Except.ok res at h
        rw [← Except.ok.inj h]
        simp
  · intro acc
    induction acc with
    | nil => intro f c r hf; exact Option.noConfusion hf
    | cons r0 rest ih =>
        intro f c r hf hinc
        unfold mergeLine
        by_cases hbeq : (r0.filename == f) = true
        · rw [if_pos hbeq]
          rw [List.find?] at hf
          rw [hbeq] at hf
          have hr : r0 = r := Option.some.inj hf
          rw [if_pos (hr ▸ hinc)]
        · rw [if_neg hbeq]
          rw [List.find?] at hf
          rw [Bool.not_eq_true] at hbeq
          rw [hbeq] at hf
          rw [ih f c r hf hinc]

/-- Witness for the amended C9: the concrete C9 aggregate has distinct
filenames, and merging the already-contained line `abc` into it changes
nothing. -/
theorem c9_amended_witness :
    (([{ reference := none, imported := none, filename := "f.ts",
         data := "abc def" }] : List FinderResult).map FinderResult.filename).Nodup ∧
    mergeLine [{ reference := none, imported := none, filename := "f.ts",
                 data := "abc def" }] "f.ts" "abc" =
      [{ reference := none, imported := none, filename := "f.ts",
         data := "abc def" }] :=
  ⟨c9_amended.1 "rg" c9oracle c9struct
      [{ reference := none, imported := none, filename := "f.ts", data := "abc def" }]
      rfl,
   c9_amended.2
      [{ reference := none, imported := none, filename := "f.ts", data := "abc def" }]
      "f.ts" "abc"
      { reference := none, imported := none, filename := "f.ts", data := "abc def" }
      rfl rfl⟩

/-- Bridge between the stateful `addExport` fold and the spec-side
first-seen deduplication: as long as `seenNames` lists exactly the
accumulated export names, the fold computes `firstSeenFrom`. -/
theorem foldl_addExport_spec :
    ∀ (l : List (String × String)) (acc : List StructureInfo),
      l.foldl (fun s p => addExport s p.1 p.2)
          { exports := acc, seenNames := acc.map StructureInfo.name } =
        ParserState.mk (firstSeenFrom acc l)
          ((firstSeenFrom acc l).map StructureInfo.name) := by
  intro l
  induction l with
  | nil => intro acc; rfl
  | cons p rest ih =>
      intro acc
      simp only [List.foldl_cons]
      unfold firstSeenFrom
      by_cases hc : (p.1 ≠ "" && !((acc.map StructureInfo.name).contains p.1)) = true
      · rw [if_pos hc]
        have haddexp :
            addExport { exports := acc, seenNames := acc.map StructureInfo.name } p.1 p.2 =
              ParserState.mk (acc ++ [StructureInfo.mk p.1 p.2])
                ((acc ++ [StructureInfo.mk p.1 p.2]).map StructureInfo.name) := by
          unfold addExport
          rw [if_pos hc]
          simp
        rw [haddexp]
        exact ih (acc ++ [StructureInfo.mk p.1 p.2])
      · rw [if_neg hc]
        have haddexp :
            addExport { exports := acc, seenNames := acc.map StructureInfo.name } p.1 p.2 =
              { exports := acc, seenNames := acc.map StructureInfo.name } := by
          unfold addExport
          rw [if_neg hc]
        rw [haddexp]
        exact ih acc

/-- First-seen deduplication never produces a repeated name. -/
theorem firstSeenFrom_nodup :
    ∀ (l : List (String × String)) (acc : List StructureInfo),
      ((acc.map StructureInfo.name)).Nodup →
      (((firstSeenFrom acc l).map StructureInfo.name)).Nodup := by
  intro l
  induction l with
  | nil => intro acc h; exact h
  | cons p rest ih =>
      intro acc h
      unfold firstSeenFrom
      by_cases hc : (p.1 ≠ "" && !((acc.map StructureInfo.name).contains p.1)) = true
      · rw [if_pos hc]
        refine ih _ ?_
        have h2 := (Bool.and_eq_true _ _ |>.mp hc).2
        rw [Bool.not_eq_true'] at h2
        have hnot : p.1 ∉ acc.map StructureInfo.name := by
          intro hm
          have helem : List.elem p.1 (acc.map StructureInfo.name) = true :=
            List.elem_iff.mpr hm
          have hcontains : List.elem p.1 (acc.map StructureInfo.name) = false := h2
          rw [helem] at hcontains
          exact Bool.noConfusion hcontains
        simp [List.nodup_append, h, hnot]
      · rw [if_neg hc]
        exact ih acc h

/-- Projection of an explicitly built parser state. -/
theorem ParserState_exports_mk (a : List StructureInfo) (b : List String) :
    (ParserState.mk a b).exports = a := rfl

/-- Unfolding lemma for `firstSeenSpec`. -/
theorem firstSeenSpec_def (l : List (String × String)) :
    firstSeenSpec l = firstSeenFrom [] l := rfl

/-- C7: on a fresh extractor state, `findFileStructure` of an existing file
returns exactly the first-seen deduplication of its pattern-scan stream —
one descriptor per distinct non-empty matched name, in first-seen order
across the scan precedence, each keeping its first-assigned kind — and the
returned names are pairwise distinct. -/
theorem c7_extractor (fs : String → Bool) (read : String → String)
    (filePath : String) (hfs : fs filePath = true) :
    (findFileStructure freshParserState fs read filePath).2 =
      firstSeenSpec (scanStream (read filePath)) ∧
    (((findFileStructure freshParserState fs read filePath).2).map
      StructureInfo.name).Nodup := by
  unfold findFileStructure
  rw [hfs]
  simp only [Bool.not_true, Bool.false_eq_true, if_false]
  rw [show freshParserState = ParserState.mk ([] : List StructureInfo)
        (([] : List StructureInfo).map StructureInfo.name) from rfl]
  rw [foldl_addExport_spec (scanStream (read filePath)) []]
  rw [ParserState_exports_mk]
  rw [firstSeenSpec_def]
  exact ⟨rfl, firstSeenFrom_nodup (scanStream (read filePath)) [] List.nodup_nil⟩

/-- Witness for C7 at a concrete file exporting one function. -/
theorem c7_extractor_witness :
    (findFileStructure freshParserState (fun p => p == "/W.ts")
        (fun _ => "export function w") "/W.ts").2 =
      firstSeenSpec (scanStream ((fun _ => "export function w") "/W.ts")) ∧
    (((findFileStructure freshParserState (fun p => p == "/W.ts")
        (fun _ => "export function w") "/W.ts").2).map StructureInfo.name).Nodup :=
  c7_extractor (fun p => p == "/W.ts") (fun _ => "export function w") "/W.ts" rfl

end Figra
